import Mathlib

/-!
Shallow embedding of the TMS time-tracking application
(src/app/database.py, src/app/models.py, src/app/main.py).

Dates and datetimes are modelled after CPython's datetime module:
a date is a (year, month, day) triple, valid when 1 <= year <= 9999,
1 <= month <= 12 and 1 <= day <= daysInMonth year month; constructing an
invalid date raises in Python, which the model renders as Option.none.
SQLAlchemy stores are modelled as in-memory lists of rows; every route
handler takes the store and returns the response paired with the store
after the request (errors raised before a write leave the store as it was,
matching the handlers, which raise HTTPException before any mutating
statement).  Float columns are modelled as Rat: no claim performs
floating-point arithmetic, durations are only stored and re-emitted.
-/

namespace TMS

/-- Leap-year test, mirroring the condition used by Python's datetime
(year divisible by 4 and not by 100 unless by 400). -/
def isLeap (y : Nat) : Bool :=
  decide (y % 4 = 0 ∧ (y % 100 ≠ 0 ∨ y % 400 = 0))

/-- Number of days of a month, mirroring CPython's days_in_month. -/
def daysInMonth (y m : Nat) : Nat :=
  if m = 2 then (if isLeap y then 29 else 28)
  else if m = 4 ∨ m = 6 ∨ m = 9 ∨ m = 11 then 30
  else 31

/-- The DAYS_BEFORE_MONTH table of CPython's datetime module:
cumulative day counts of a non-leap year before each month. -/
def daysBeforeMonthTable : Nat → Nat
  | 1 => 0
  | 2 => 31
  | 3 => 59
  | 4 => 90
  | 5 => 120
  | 6 => 151
  | 7 => 181
  | 8 => 212
  | 9 => 243
  | 10 => 273
  | 11 => 304
  | 12 => 334
  | _ => 0

/-- Days before the first of a given month within a year, mirroring
CPython's days_before_month (table plus a leap correction after February). -/
def daysBeforeMonth (y m : Nat) : Nat :=
  daysBeforeMonthTable m + (if 2 < m ∧ isLeap y then 1 else 0)

/-- Days before January 1 of a given year, mirroring CPython's
days_before_year. -/
def daysBeforeYear (y : Nat) : Nat :=
  (y - 1) * 365 + (y - 1) / 4 - (y - 1) / 100 + (y - 1) / 400

/-- A calendar date, as produced by Python's datetime.date. -/
structure Date where
  year : Nat
  month : Nat
  day : Nat
deriving DecidableEq, Repr

/-- Proleptic-Gregorian ordinal of a date (January 1 of year 1 is day 1),
mirroring datetime.date.toordinal. -/
def toOrdinal (d : Date) : Nat :=
  daysBeforeYear d.year + daysBeforeMonth d.year d.month + d.day

/-- The field validation performed by the datetime.date constructor. -/
def Date.isValid (d : Date) : Bool :=
  decide (1 ≤ d.year ∧ d.year ≤ 9999 ∧ 1 ≤ d.month ∧ d.month ≤ 12 ∧
    1 ≤ d.day ∧ d.day ≤ daysInMonth d.year d.month)

/-- Construction of a datetime.date from possibly out-of-range integers:
some date when the fields pass validation, none when the constructor
would raise ValueError (including years outside 1..9999). -/
def mkDate (y m d : Int) : Option Date :=
  if 1 ≤ y ∧ y ≤ 9999 ∧ 1 ≤ m ∧ m ≤ 12 ∧ 1 ≤ d ∧
      d ≤ (daysInMonth y.toNat m.toNat : Int)
  then some ⟨y.toNat, m.toNat, d.toNat⟩ else none

/-- Date comparison: Python compares dates lexicographically on
(year, month, day); this is also the SQLite ordering of the ISO text the
Date column stores. -/
def dle (a b : Date) : Bool :=
  decide (a.year < b.year ∨ (a.year = b.year ∧
    (a.month < b.month ∨ (a.month = b.month ∧ a.day ≤ b.day))))

/-- Strict date comparison. -/
def dlt (a b : Date) : Bool :=
  decide (a.year < b.year ∨ (a.year = b.year ∧
    (a.month < b.month ∨ (a.month = b.month ∧ a.day < b.day))))

/-- Successor date, the effect of adding timedelta(days=1). -/
def nextDate (d : Date) : Date :=
  if d.day < daysInMonth d.year d.month then ⟨d.year, d.month, d.day + 1⟩
  else if d.month < 12 then ⟨d.year, d.month + 1, 1⟩
  else ⟨d.year + 1, 1, 1⟩

/-- Predecessor date, the effect of subtracting timedelta(days=1). -/
def prevDate (d : Date) : Date :=
  if 1 < d.day then ⟨d.year, d.month, d.day - 1⟩
  else if 1 < d.month then ⟨d.year, d.month - 1, daysInMonth d.year (d.month - 1)⟩
  else ⟨d.year - 1, 12, 31⟩

/-- Subtracting a timedelta of n days from a date. -/
def subDays (d : Date) : Nat → Date
  | 0 => d
  | n + 1 => subDays (prevDate d) n

/-- Left-pad a number with zeros to a given width, as Python's
zero-padded formatting does. -/
def padNum (w n : Nat) : String :=
  let s := toString n
  String.mk (List.replicate (w - s.length) ('0')) ++ s

/-- ISO-8601 rendering of a date, mirroring date.isoformat. -/
def Date.isoformat (d : Date) : String :=
  padNum 4 d.year ++ "-" ++ padNum 2 d.month ++ "-" ++ padNum 2 d.day

/-- A datetime as stored in the start_time and end_time columns: the
application only ever builds them with datetime.combine from a date and a
strptime-parsed HH:MM time, so seconds and microseconds are always zero
and are omitted from the model. -/
structure DateTime where
  date : Date
  hour : Nat
  minute : Nat
deriving DecidableEq, Repr

/-- Splitting a character list at every colon, the behavior of
String.splitOn with a one-character separator (the result is never
empty). -/
def splitColon : List Char → List (List Char)
  | [] => [[]]
  | c :: cs =>
    if c = ':' then [] :: splitColon cs
    else match splitColon cs with
      | [] => [[c]]
      | p :: ps => (c :: p) :: ps

/-- Reading a nonempty all-digit character list as a decimal number. -/
def digitsToNat : List Char → Nat → Option Nat
  | [], acc => some acc
  | c :: cs, acc =>
    if c.isDigit then digitsToNat cs (acc * 10 + (c.toNat - 48)) else none

/-- Parsing of a time-of-day string by datetime.strptime with format
string HH colon MM: one or two digits for each field, hour below 24,
minute below 60; none models the ValueError raised on any other input. -/
def parseHM (s : String) : Option (Nat × Nat) :=
  match splitColon s.data with
  | [hs, ms] =>
    if hs = [] ∨ ms = [] then none
    else match digitsToNat hs 0, digitsToNat ms 0 with
      | some h, some mi =>
        if hs.length ≤ 2 ∧ ms.length ≤ 2 ∧ h < 24 ∧ mi < 60 then some (h, mi) else none
      | _, _ => none
  | _ => none

/-- The categories table row shape (src/app/models.py, class Category). -/
structure Category where
  id : Nat
  name : String
  color : Option String
  description : Option String
deriving DecidableEq, Repr

/-- The time_entries table row shape (src/app/models.py, class TimeEntry). -/
structure TimeEntry where
  id : Nat
  date : Date
  start_time : Option DateTime
  end_time : Option DateTime
  duration_hours : Rat
  comment : Option String
  category_id : Nat
deriving DecidableEq, Repr

/-- The persistent store: the two tables plus the autoincrement counters
the engine uses to assign primary keys. -/
structure Store where
  categories : List Category
  entries : List TimeEntry
  next_category_id : Nat
  next_entry_id : Nat
deriving DecidableEq, Repr

/-- An HTTPException raised by a handler (status code and detail). -/
structure HTTPException where
  status_code : Nat
  detail : String
deriving DecidableEq, Repr

instance {ε α : Type} [DecidableEq ε] [DecidableEq α] : DecidableEq (Except ε α) :=
  fun x y =>
    match x, y with
    | .ok a, .ok b =>
      if h : a = b then isTrue (by rw [h]) else isFalse (by intro he; cases he; exact h rfl)
    | .error a, .error b =>
      if h : a = b then isTrue (by rw [h]) else isFalse (by intro he; cases he; exact h rfl)
    | .ok _, .error _ => isFalse (by intro h; cases h)
    | .error _, .ok _ => isFalse (by intro h; cases h)

/-- Session.get on the Category primary key. -/
def get_category (db : Store) (cid : Nat) : Option Category :=
  db.categories.find? (fun c => c.id == cid)

/-- Session.get on the TimeEntry primary key. -/
def get_entry (db : Store) (eid : Nat) : Option TimeEntry :=
  db.entries.find? (fun e => e.id == eid)

/-- The invariant that every time entry references an existing category. -/
def entriesValid (db : Store) : Prop :=
  ∀ e ∈ db.entries, ∃ c ∈ db.categories, c.id = e.category_id

instance (db : Store) : Decidable (entriesValid db) := by
  unfold entriesValid; infer_instance

/-- Lines 71 to 76 of main.py: an empty time string leaves the timestamp
absent, a nonempty one is parsed with strptime (ValueError propagating as
a server error) and combined with the date of the entry. -/
def parse_time_field (date_value : Date) (s : String) :
    Except HTTPException (Option DateTime) :=
  if s = "" then .ok none
  else match parseHM s with
    | some t => .ok (some ⟨date_value, t.1, t.2⟩)
    | none => .error ⟨500, ("Internal Server Error")⟩

/-- The POST /entries/add handler (main.py, add_entry).  Returns the
response (redirect URL or raised HTTPException) paired with the store
after the request. -/
def add_entry (db : Store) (date_value : Date) (category_id : Nat)
    (duration_hours : Rat) (comment start_time_str end_time_str : String) :
    Except HTTPException String × Store :=
  match get_category db category_id with
  | none => (.error ⟨404, ("Category not found")⟩, db)
  | some _ =>
    match parse_time_field date_value start_time_str with
    | .error err => (.error err, db)
    | .ok start_dt =>
      match parse_time_field date_value end_time_str with
      | .error err => (.error err, db)
      | .ok end_dt =>
        let entry : TimeEntry :=
          ⟨db.next_entry_id, date_value, start_dt, end_dt, duration_hours,
            (if comment = "" then none else some comment), category_id⟩
        (.ok ("/?day=" ++ date_value.isoformat),
          ⟨db.categories, db.entries ++ [entry],
            db.next_category_id, db.next_entry_id + 1⟩)

/-- The POST /entries/entry_id/delete handler (main.py, delete_entry). -/
def delete_entry (db : Store) (entry_id : Nat) :
    Except HTTPException String × Store :=
  match get_entry db entry_id with
  | none => (.error ⟨404, ("Entry not found")⟩, db)
  | some entry =>
    (.ok ("/?day=" ++ entry.date.isoformat),
      ⟨db.categories, db.entries.filter (fun e => !(e.id == entry_id)),
        db.next_category_id, db.next_entry_id⟩)

/-- Result.scalar_one_or_none: none on no row, the row when unique, and a
MultipleResultsFound error (surfaced as a 500) on several rows. -/
def scalar_one_or_none (l : List α) : Except HTTPException (Option α) :=
  match l with
  | [] => .ok none
  | [a] => .ok (some a)
  | _ => .error ⟨500, ("Internal Server Error")⟩

/-- The POST /categories/add handler (main.py, add_category).  The two
optional fields model the FastAPI Form defaults: none stands for a field
absent from the form, in which case the declared defaults (the string
hash-1976d2 for color, the empty string for description) are used; a
submitted value, empty or not, is passed through unchanged. -/
def add_category (db : Store) (name : String)
    (color? description? : Option String) :
    Except HTTPException String × Store :=
  let color := color?.getD ("#1976d2")
  let description := description?.getD ("")
  match scalar_one_or_none (db.categories.filter (fun c => c.name == name)) with
  | .error err => (.error err, db)
  | .ok (some _) =>
    (.error ⟨400, ("Category with this name already exists")⟩, db)
  | .ok none =>
    let category : Category :=
      ⟨db.next_category_id, name,
        (if color = "" then none else some color),
        (if description = "" then none else some description)⟩
    (.ok ("/categories"),
      ⟨db.categories ++ [category], db.entries,
        db.next_category_id + 1, db.next_entry_id⟩)

/-- The POST /categories/category_id/delete handler (main.py,
delete_category).  Deleting the category object triggers the
delete-orphan cascade declared on Category.time_entries, removing every
entry whose category_id references it. -/
def delete_category (db : Store) (category_id : Nat) :
    Except HTTPException String × Store :=
  match get_category db category_id with
  | none => (.error ⟨404, ("Category not found")⟩, db)
  | some _ =>
    (.ok ("/categories"),
      ⟨db.categories.filter (fun c => !(c.id == category_id)),
        db.entries.filter (fun e => !(e.category_id == category_id)),
        db.next_category_id, db.next_entry_id⟩)

/-- Ordering of entries used by the GET / day view: ORDER BY start_time,
id; SQLite sorts NULL start times first, ties broken by id. -/
def entry_start_le (a b : TimeEntry) : Bool :=
  match a.start_time, b.start_time with
  | none, none => decide (a.id ≤ b.id)
  | none, some _ => true
  | some _, none => false
  | some x, some y =>
    decide (toOrdinal x.date < toOrdinal y.date ∨ (toOrdinal x.date = toOrdinal y.date ∧
      (x.hour < y.hour ∨ (x.hour = y.hour ∧
        (x.minute < y.minute ∨ (x.minute = y.minute ∧ a.id ≤ b.id))))))

/-- Ordering of categories used wherever the code issues ORDER BY
Category.name (SQLite binary collation, which on UTF-8 text agrees with
code-point order). -/
def category_name_le (a b : Category) : Bool :=
  decide (a.name ≤ b.name)

/-- The GET / day view handler (main.py, index): resolves the day
(defaulting to today), loads the categories ordered by name and the
entries of that day ordered by start time then id, and renders them. -/
def index (db : Store) (today : Date) (day? : Option Date) :
    (Date × List TimeEntry × List Category) × Store :=
  let day := day?.getD today
  let categories := db.categories.mergeSort category_name_le
  let entries := (db.entries.filter (fun e => e.date == day)).mergeSort entry_start_le
  ((day, entries, categories), db)

/-- Sum of duration_hours grouped by date over the entries with date
between s and e inclusive, ordered by date ascending: the aggregate query
shared by the calendar and statistics routes. -/
def day_totals (entries : List TimeEntry) (s e : Date) : List (Date × Rat) :=
  let inR := entries.filter (fun x => dle s x.date && dle x.date e)
  let ds := (inR.map (fun x => x.date)).dedup.mergeSort dle
  ds.map (fun d =>
    (d, (inR.filter (fun x => x.date == d)).foldl (fun acc x => acc + x.duration_hours) 0))

/-- The data the calendar template receives. -/
structure CalendarPage where
  month : Int
  year : Int
  days : List Date
  totals_map : List (Date × Rat)
deriving DecidableEq, Repr

/-- The day-enumeration loop of calendar_view, which starts at the first
day of the month and appends and steps one day forward while the current
date is at most the last day.  The fuel argument bounds the iteration
count; dateList below supplies exactly the number of days between the two
bounds, which is the number of iterations the loop performs on the valid
dates the route constructs. -/
def dayLoopAux : Nat → Date → Date → List Date
  | 0, _, _ => []
  | fuel + 1, current, end_date =>
    if dle current end_date then current :: dayLoopAux fuel (nextDate current) end_date
    else []

/-- The list of days from start to end_date inclusive built by the while
loop in calendar_view. -/
def dateList (start_date end_date : Date) : List Date :=
  dayLoopAux (toOrdinal end_date + 1 - toOrdinal start_date) start_date end_date

/-- The GET /calendar handler (main.py, calendar_view): defaults month
and year to today, constructs the first day of the month and the first
day of the following month (December wrapping to January of the next
year), steps back one day for the month end, enumerates the days and
aggregates per-day totals over the same range.  A ValueError raised by
an out-of-range date construction escapes the handler as a server
error with no page produced. -/
def calendar_view (db : Store) (today : Date) (month? year? : Option Int) :
    Except HTTPException CalendarPage × Store :=
  let month := month?.getD (today.month : Int)
  let year := year?.getD (today.year : Int)
  match mkDate year month 1 with
  | none => (.error ⟨500, ("Internal Server Error")⟩, db)
  | some start_date =>
    match (if month == 12 then mkDate (year + 1) 1 1 else mkDate year (month + 1) 1) with
    | none => (.error ⟨500, ("Internal Server Error")⟩, db)
    | some next_month =>
      let end_date := prevDate next_month
      let days := dateList start_date end_date
      let totals_map := day_totals db.entries start_date end_date
      (.ok ⟨month, year, days, totals_map⟩, db)

/-- The data the statistics template receives; stop is the field the
source calls end, a reserved word here. -/
structure StatsPage where
  start : Date
  stop : Date
  per_category : List (String × Rat)
  per_day : List (Date × Rat)
  cat_labels : List String
  cat_values : List Rat
  day_labels : List String
  day_values : List Rat
deriving DecidableEq, Repr

/-- Sum of duration_hours grouped by category name over the entries with
date between s and e inclusive joined to their category, ordered by name
ascending: the per-category aggregate of the statistics route.  The join
matches each entry with the category its category_id references (the
primary key admits at most one match). -/
def category_totals (db : Store) (s e : Date) : List (String × Rat) :=
  let inR := db.entries.filter (fun x => dle s x.date && dle x.date e)
  let joined := inR.filterMap (fun x =>
    (db.categories.find? (fun c => c.id == x.category_id)).map (fun c => (c.name, x.duration_hours)))
  let names := (joined.map (fun p => p.1)).dedup.mergeSort (fun a b => decide (a ≤ b))
  names.map (fun n =>
    (n, (joined.filter (fun p => p.1 == n)).foldl (fun acc p => acc + p.2) 0))

/-- The GET /stats handler (main.py, stats_view): end defaults to today,
start to end minus six days, then the two aggregates and their label and
value sequences are assembled for the template. -/
def stats_view (db : Store) (today : Date) (start? end? : Option Date) :
    StatsPage × Store :=
  let e := end?.getD today
  let s := start?.getD (subDays e 6)
  let per_category := category_totals db s e
  let per_day := day_totals db.entries s e
  (⟨s, e, per_category, per_day,
    per_category.map (fun p => p.1), per_category.map (fun p => p.2),
    per_day.map (fun p => p.1.isoformat), per_day.map (fun p => p.2)⟩, db)

/-- A spreadsheet cell: the export writes strings and raw floats. -/
inductive Cell where
  | str (v : String)
  | num (v : Rat)
deriving DecidableEq, Repr

/-- The workbook the export route streams back: single sheet title, its
rows, and the attachment file name. -/
structure Workbook where
  title : String
  rows : List (List Cell)
  filename : String
deriving DecidableEq, Repr

/-- Rendering of an optional timestamp as HH:MM, or the empty string when
absent (main.py lines 292 and 293). -/
def fmtHM (t : Option DateTime) : String :=
  match t with
  | none => ""
  | some dt => padNum 2 dt.hour ++ ":" ++ padNum 2 dt.minute

/-- The header row of the export (main.py lines 275 to 282). -/
def export_headers : List String :=
  ["Дата", "Категория", "Часы", "Комментарий", "Время начала", "Время окончания"]

/-- One data row of the export (main.py lines 285 to 295): ISO date,
category name, raw duration, comment or empty, formatted times or empty. -/
def entry_row (x : TimeEntry) (c : Category) : List Cell :=
  [.str x.date.isoformat, .str c.name, .num x.duration_hours,
    .str (x.comment.getD ("")), .str (fmtHM x.start_time), .str (fmtHM x.end_time)]

/-- Ordering of export rows: ORDER BY TimeEntry.date, TimeEntry.id. -/
def export_le (a b : TimeEntry) : Bool :=
  dlt a.date b.date || (decide (a.date = b.date) && decide (a.id ≤ b.id))

/-- The entries the export query returns, before the join: date between
s and e inclusive. -/
def inRangeEntries (db : Store) (s e : Date) : List TimeEntry :=
  db.entries.filter (fun x => dle s x.date && dle x.date e)

/-- The GET /export/excel handler (main.py, export_excel): end defaults
to today, start to end minus thirty days; the matching entries joined to
their categories, ordered by date then id, become the data rows after the
fixed header row on the sheet named Time entries. -/
def export_excel (db : Store) (today : Date) (start? end? : Option Date) :
    Workbook × Store :=
  let e := end?.getD today
  let s := start?.getD (subDays e 30)
  let sorted := (inRangeEntries db s e).mergeSort export_le
  let data_rows := sorted.filterMap (fun x =>
    (db.categories.find? (fun c => c.id == x.category_id)).map (entry_row x))
  (⟨("Time entries"), export_headers.map Cell.str :: data_rows,
    ("time_entries_") ++ s.isoformat ++ "_" ++ e.isoformat ++ ".xlsx"⟩, db)

/-- An empty store, as produced by the startup schema creation. -/
def emptyStore : Store := ⟨[], [], 1, 1⟩

/-- A sample date used by concrete witnesses. -/
def demoDate : Date := ⟨2024, 5, 15⟩

/-- A sample category used by concrete witnesses. -/
def demoCategory : Category := ⟨1, ("Work"), none, none⟩

/-- A sample entry used by concrete witnesses. -/
def demoEntry : TimeEntry := ⟨1, demoDate, none, none, 2, none, 1⟩

/-- A sample store with one category and one entry under it. -/
def demoStore : Store := ⟨[demoCategory], [demoEntry], 2, 2⟩

lemma get_category_spec {db : Store} {cid : Nat} {c : Category}
    (h : get_category db cid = some c) : c ∈ db.categories ∧ c.id = cid := by
  unfold get_category at h
  exact ⟨List.mem_of_find?_eq_some h, by simpa using List.find?_some h⟩

lemma index_snd (db : Store) (today : Date) (day? : Option Date) :
    (index db today day?).2 = db := rfl

lemma calendar_view_snd (db : Store) (today : Date) (month? year? : Option Int) :
    (calendar_view db today month? year?).2 = db := by
  unfold calendar_view
  dsimp only
  split
  · rfl
  · split
    · rfl
    · rfl

lemma stats_view_snd (db : Store) (today : Date) (start? end? : Option Date) :
    (stats_view db today start? end?).2 = db := rfl

lemma export_excel_snd (db : Store) (today : Date) (start? end? : Option Date) :
    (export_excel db today start? end?).2 = db := rfl

lemma entriesValid_add_entry (db : Store) (dv : Date) (cid : Nat) (dur : Rat)
    (cm s e : String) (h : entriesValid db) :
    entriesValid (add_entry db dv cid dur cm s e).2 := by
  unfold add_entry
  cases hg : get_category db cid with
  | none => exact h
  | some c =>
    obtain ⟨hc_mem, hc_id⟩ := get_category_spec hg
    cases hs : parse_time_field dv s with
    | error err => exact h
    | ok st =>
      cases he : parse_time_field dv e with
      | error err => exact h
      | ok et =>
        intro x hx
        simp only [List.mem_append, List.mem_singleton] at hx
        rcases hx with hx | hx
        · exact h x hx
        · subst hx
          exact ⟨c, hc_mem, hc_id⟩

lemma entriesValid_delete_entry (db : Store) (eid : Nat)
    (h : entriesValid db) : entriesValid (delete_entry db eid).2 := by
  unfold delete_entry
  cases hg : get_entry db eid with
  | none => exact h
  | some entry =>
    intro x hx
    exact h x (List.mem_filter.mp hx).1

lemma entriesValid_add_category (db : Store) (nm : String)
    (color? description? : Option String) (h : entriesValid db) :
    entriesValid (add_category db nm color? description?).2 := by
  unfold add_category
  dsimp only
  cases hsc : scalar_one_or_none (db.categories.filter (fun c => c.name == nm)) with
  | error err => exact h
  | ok o =>
    cases o with
    | some c => exact h
    | none =>
      intro x hx
      obtain ⟨c, hc1, hc2⟩ := h x hx
      exact ⟨c, List.mem_append_left _ hc1, hc2⟩

lemma entriesValid_delete_category (db : Store) (cid : Nat)
    (h : entriesValid db) : entriesValid (delete_category db cid).2 := by
  unfold delete_category
  cases hg : get_category db cid with
  | none => exact h
  | some c =>
    intro x hx
    rw [List.mem_filter] at hx
    obtain ⟨hx1, hx2⟩ := hx
    obtain ⟨c2, hc1, hc2⟩ := h x hx1
    refine ⟨c2, ?_, hc2⟩
    rw [List.mem_filter]
    refine ⟨hc1, ?_⟩
    simp only [Bool.not_eq_true', beq_eq_false_iff_ne] at hx2 ⊢
    rw [hc2]
    exact hx2

/-- C1: deleting a category that exists removes it and cascades to every
entry referencing it, and the invariant that every entry references an
existing category is preserved by every operation of the application
(the four mutating handlers; the four read-only handlers leave the store
untouched). -/
theorem C1_cascade_delete_and_invariant (db : Store) :
    (∀ category_id c, get_category db category_id = some c →
      ∃ db2, delete_category db category_id = (.ok ("/categories"), db2) ∧
        db2.categories = db.categories.filter (fun x => !(x.id == category_id)) ∧
        db2.entries = db.entries.filter (fun x => !(x.category_id == category_id)) ∧
        (∀ x ∈ db2.categories, x.id ≠ category_id) ∧
        (∀ x ∈ db2.entries, x.category_id ≠ category_id)) ∧
    (∀ dv cid dur cm s e, entriesValid db →
      entriesValid (add_entry db dv cid dur cm s e).2) ∧
    (∀ eid, entriesValid db → entriesValid (delete_entry db eid).2) ∧
    (∀ nm c? d?, entriesValid db → entriesValid (add_category db nm c? d?).2) ∧
    (∀ cid, entriesValid db → entriesValid (delete_category db cid).2) ∧
    (∀ today day?, entriesValid db → entriesValid (index db today day?).2) ∧
    (∀ today m? y?, entriesValid db →
      entriesValid (calendar_view db today m? y?).2) ∧
    (∀ today s? e?, entriesValid db → entriesValid (stats_view db today s? e?).2) ∧
    (∀ today s? e?, entriesValid db →
      entriesValid (export_excel db today s? e?).2) := by
  refine ⟨?_, ?_, ?_, ?_, ?_, ?_, ?_, ?_, ?_⟩
  · intro cid c hc
    unfold delete_category
    rw [hc]
    refine ⟨_, rfl, rfl, rfl, ?_, ?_⟩
    · intro x hx
      have := (List.mem_filter.mp hx).2
      simpa using this
    · intro x hx
      have := (List.mem_filter.mp hx).2
      simpa using this
  · intro dv cid dur cm s e h
    exact entriesValid_add_entry db dv cid dur cm s e h
  · intro eid h
    exact entriesValid_delete_entry db eid h
  · intro nm c? d? h
    exact entriesValid_add_category db nm c? d? h
  · intro cid h
    exact entriesValid_delete_category db cid h
  · intro today day? h
    rw [index_snd]
    exact h
  · intro today m? y? h
    rw [calendar_view_snd]
    exact h
  · intro today s? e? h
    rw [stats_view_snd]
    exact h
  · intro today s? e? h
    rw [export_excel_snd]
    exact h

/-- Concrete instance of C1 at the sample store: deleting category 1
removes it together with the entry referencing it, and adding an entry
under it preserves the reference invariant. -/
theorem C1_witness :
    (∃ db2, delete_category demoStore 1 = (.ok ("/categories"), db2) ∧
      db2.categories = demoStore.categories.filter (fun x => !(x.id == 1)) ∧
      db2.entries = demoStore.entries.filter (fun x => !(x.category_id == 1)) ∧
      (∀ x ∈ db2.categories, x.id ≠ 1) ∧
      (∀ x ∈ db2.entries, x.category_id ≠ 1)) ∧
    entriesValid (add_entry demoStore demoDate 1 2 ("") ("") ("")).2 :=
  ⟨(C1_cascade_delete_and_invariant demoStore).1 1 demoCategory (by decide),
    (C1_cascade_delete_and_invariant demoStore).2.1 demoDate 1 2 ("") ("") ("")
      (by decide)⟩

/-- C10: every read-only route (day view, calendar view, statistics view,
spreadsheet export) performs no writes: for every input, the store after
the request equals the store before it. -/
theorem C10_read_routes_no_writes (db : Store) (today : Date)
    (day? : Option Date) (month? year? : Option Int)
    (s1? e1? s2? e2? : Option Date) :
    (index db today day?).2 = db ∧
    (calendar_view db today month? year?).2 = db ∧
    (stats_view db today s1? e1?).2 = db ∧
    (export_excel db today s2? e2?).2 = db := by
  refine ⟨rfl, ?_, rfl, rfl⟩
  unfold calendar_view
  dsimp only
  split
  · rfl
  · split
    · rfl
    · rfl

/-- C3: a create-entry request whose category id resolves to no existing
category fails with a 404 Category not found and leaves the store
unchanged (the existence check short-circuits before any write). -/
theorem C3_add_entry_requires_category (db : Store) (date_value : Date)
    (category_id : Nat) (duration_hours : Rat)
    (comment start_time_str end_time_str : String)
    (h : ∀ c ∈ db.categories, c.id ≠ category_id) :
    add_entry db date_value category_id duration_hours
        comment start_time_str end_time_str =
      (.error ⟨404, ("Category not found")⟩, db) := by
  have hf : get_category db category_id = none := by
    unfold get_category
    rw [List.find?_eq_none]
    intro c hc
    simpa using h c hc
  unfold add_entry
  rw [hf]

/-- Concrete instance of C3: creating an entry against category id 5,
which the sample store does not contain, fails with 404 and changes
nothing. -/
theorem C3_witness :
    add_entry demoStore demoDate 5 2 ("") ("") ("") =
      (.error ⟨404, ("Category not found")⟩, demoStore) :=
  C3_add_entry_requires_category demoStore demoDate 5 2 ("") ("") ("")
    (by decide)

lemma filter_name_nodup {l : List Category} {nm : String}
    (h : (l.map (fun c => c.name)).Nodup) :
    l.filter (fun c => c.name == nm) = [] ∨
      ∃ c, l.filter (fun c => c.name == nm) = [c] := by
  induction l with
  | nil => exact Or.inl rfl
  | cons c t ih =>
    simp only [List.map_cons, List.nodup_cons] at h
    obtain ⟨hnotin, hnd⟩ := h
    by_cases hc : c.name = nm
    · right
      refine ⟨c, ?_⟩
      rw [List.filter_cons_of_pos (by simpa using hc)]
      have : t.filter (fun x => x.name == nm) = [] := by
        rw [List.filter_eq_nil_iff]
        intro x hx
        simp only [beq_iff_eq]
        intro hxn
        exact hnotin (by rw [hc, ← hxn]; exact List.mem_map_of_mem _ hx)
      rw [this]
    · rw [List.filter_cons_of_neg (by simpa using hc)]
      exact ih hnd

/-- C2: creating a category whose name exactly matches an existing one
fails with a 400 error carrying the literal duplicate-name message and
leaves the store unchanged, while a fresh name is persisted as a new
category; the failure happens exactly when the name exists.  The
hypothesis that stored names are distinct restates the unique=True
constraint on the name column. -/
theorem C2_duplicate_category_name (db : Store) (name : String)
    (color? description? : Option String)
    (hnd : (db.categories.map (fun c => c.name)).Nodup) :
    ((∃ c ∈ db.categories, c.name = name) →
      add_category db name color? description? =
        (.error ⟨400, ("Category with this name already exists")⟩, db)) ∧
    ((∀ c ∈ db.categories, c.name ≠ name) →
      ∃ cat, add_category db name color? description? =
        (.ok ("/categories"),
          ⟨db.categories ++ [cat], db.entries,
            db.next_category_id + 1, db.next_entry_id⟩) ∧
        cat.name = name ∧ cat.id = db.next_category_id) := by
  constructor
  · rintro ⟨c, hc, hcn⟩
    obtain ⟨a, ha⟩ : ∃ a, db.categories.filter (fun x => x.name == name) = [a] := by
      rcases filter_name_nodup hnd with h0 | h1
      · exfalso
        have hmem : c ∈ db.categories.filter (fun x => x.name == name) :=
          List.mem_filter.mpr ⟨hc, by simpa using hcn⟩
        rw [h0] at hmem
        exact List.not_mem_nil c hmem
      · exact h1
    unfold add_category
    dsimp only
    rw [ha]
    rfl
  · intro hno
    have hfil : db.categories.filter (fun x => x.name == name) = [] := by
      rw [List.filter_eq_nil_iff]
      intro c hc
      simpa using hno c hc
    unfold add_category
    dsimp only
    rw [hfil]
    exact ⟨_, rfl, rfl, rfl⟩

/-- Concrete instance of C2: re-creating the Work category of the sample
store fails with the 400 duplicate message and changes nothing, while a
fresh name is appended with the next id. -/
theorem C2_witness :
    (add_category demoStore ("Work") none none =
      (.error ⟨400, ("Category with this name already exists")⟩, demoStore)) ∧
    (∃ cat, add_category demoStore ("Play") none none =
      (.ok ("/categories"),
        ⟨demoStore.categories ++ [cat], demoStore.entries, 3, 2⟩) ∧
      cat.name = ("Play") ∧ cat.id = 2) :=
  ⟨(C2_duplicate_category_name demoStore ("Work") none none (by decide)).1
      ⟨demoCategory, by decide, rfl⟩,
    (C2_duplicate_category_name demoStore ("Play") none none (by decide)).2
      (by decide)⟩

/-- C4 fails on the code: a create-category request that submits the
color field as the empty string stores the category with color absent
(None), not with the default color; the category list after the call
contains no category colored with the default string. -/
theorem C4_counterexample :
    add_category emptyStore ("Work") (some ("")) none =
      (.ok ("/categories"), ⟨[⟨1, ("Work"), none, none⟩], [], 2, 1⟩) ∧
    (∀ c ∈ (add_category emptyStore ("Work") (some ("")) none).2.categories,
      c.color ≠ some ("#1976d2")) := by
  exact ⟨rfl, by decide⟩

/-- C4 amended: a submitted empty color is stored as absent (None), as
the data-model section of the specification states; the default color
hash-1976d2 is stored only when the color field is omitted from the form
altogether, in which case the FastAPI Form default applies. -/
theorem C4_empty_color_stored_absent (db : Store) (name : String)
    (description? : Option String)
    (h : db.categories.filter (fun c => c.name == name) = []) :
    ((add_category db name (some ("")) description?).1 = .ok ("/categories") ∧
      (add_category db name (some ("")) description?).2.categories.getLast?.map
        (fun c => c.color) = some none) ∧
    ((add_category db name none description?).1 = .ok ("/categories") ∧
      (add_category db name none description?).2.categories.getLast?.map
        (fun c => c.color) = some (some ("#1976d2"))) := by
  unfold add_category
  dsimp only
  rw [h]
  dsimp only [scalar_one_or_none]
  refine ⟨⟨rfl, ?_⟩, ⟨rfl, ?_⟩⟩
  · rw [List.getLast?_concat]
    rfl
  · rw [List.getLast?_concat]
    rfl

/-- Concrete instance of the amended C4 on the empty store: empty color
gives an absent color, omitted color gives the default. -/
theorem C4_witness :
    ((add_category emptyStore ("Sport") (some ("")) none).1 = .ok ("/categories") ∧
      (add_category emptyStore ("Sport") (some ("")) none).2.categories.getLast?.map
        (fun c => c.color) = some none) ∧
    ((add_category emptyStore ("Sport") none none).1 = .ok ("/categories") ∧
      (add_category emptyStore ("Sport") none none).2.categories.getLast?.map
        (fun c => c.color) = some (some ("#1976d2"))) :=
  C4_empty_color_stored_absent emptyStore ("Sport") none (by decide)

lemma daysInMonth_bounds (y m : Nat) :
    28 ≤ daysInMonth y m ∧ daysInMonth y m ≤ 31 := by
  unfold daysInMonth
  split
  · split <;> omega
  · split <;> omega

lemma daysBeforeMonth_succ (y m : Nat) (h1 : 1 ≤ m) (h2 : m ≤ 11) :
    daysBeforeMonth y (m + 1) = daysBeforeMonth y m + daysInMonth y m := by
  interval_cases m <;>
    cases hL : isLeap y <;>
      simp [daysBeforeMonth, daysBeforeMonthTable, daysInMonth, hL]

lemma daysBeforeMonth_twelve (y : Nat) :
    daysBeforeMonth y 12 = 334 + (if isLeap y then 1 else 0) := by
  cases hL : isLeap y <;> simp [daysBeforeMonth, daysBeforeMonthTable, hL]

lemma div_step (k y : Nat) (hy : 1 ≤ y) :
    y / k = (y - 1) / k + (if y % k = 0 then 1 else 0) := by
  obtain ⟨z, rfl⟩ : ∃ z, y = z + 1 := ⟨y - 1, by omega⟩
  rw [Nat.succ_div]
  simp [Nat.dvd_iff_mod_eq_zero]

lemma daysBeforeYear_succ (y : Nat) (h : 1 ≤ y) :
    daysBeforeYear (y + 1) =
      daysBeforeYear y + 365 + (if isLeap y then 1 else 0) := by
  have e4 := div_step 4 y h
  have e100 := div_step 100 y h
  have e400 := div_step 400 y h
  simp only [daysBeforeYear, isLeap, decide_eq_true_eq, Nat.add_sub_cancel]
  by_cases h4 : y % 4 = 0 <;> by_cases h100 : y % 100 = 0 <;>
    by_cases h400 : y % 400 = 0 <;>
      simp [h4, h100, h400] at e4 e100 e400 ⊢ <;> omega

lemma prevDate_spec (d : Date) (hv : d.isValid = true) (h2 : 2 ≤ toOrdinal d) :
    (prevDate d).isValid = true ∧ toOrdinal (prevDate d) + 1 = toOrdinal d := by
  obtain ⟨y, m, dy⟩ := d
  simp only [Date.isValid, decide_eq_true_eq] at hv
  obtain ⟨hy1, hy9999, hm1, hm12, hd1, hdim⟩ := hv
  unfold prevDate
  dsimp only
  by_cases hdy : 1 < dy
  · rw [if_pos hdy]
    refine ⟨?_, ?_⟩
    · simp only [Date.isValid, decide_eq_true_eq]
      exact ⟨hy1, hy9999, hm1, hm12, by omega, by omega⟩
    · simp only [toOrdinal]
      omega
  · have hdy1 : dy = 1 := by omega
    subst hdy1
    rw [if_neg hdy]
    by_cases hm : 1 < m
    · rw [if_pos hm]
      have hdbm := daysBeforeMonth_succ y (m - 1) (by omega) (by omega)
      rw [show m - 1 + 1 = m from by omega] at hdbm
      have hb := daysInMonth_bounds y (m - 1)
      refine ⟨?_, ?_⟩
      · simp only [Date.isValid, decide_eq_true_eq]
        exact ⟨hy1, hy9999, by omega, by omega, by omega, le_refl _⟩
      · simp only [toOrdinal]
        omega
    · have hmm : m = 1 := by omega
      subst hmm
      rw [if_neg hm]
      have hdbm1 : daysBeforeMonth y 1 = 0 := rfl
      have hy2 : 2 ≤ y := by
        by_contra hy
        have hyy : y = 1 := by omega
        subst hyy
        have hdby1 : daysBeforeYear 1 = 0 := rfl
        simp only [toOrdinal] at h2
        omega
      have hsucc := daysBeforeYear_succ (y - 1) (by omega)
      rw [show y - 1 + 1 = y from by omega] at hsucc
      have h12 := daysBeforeMonth_twelve (y - 1)
      have hd12 : daysInMonth (y - 1) 12 = 31 := rfl
      cases hL : isLeap (y - 1) <;> simp only [hL, if_true, if_false] at hsucc h12 <;>
        · refine ⟨?_, ?_⟩
          · simp only [Date.isValid, decide_eq_true_eq]
            exact ⟨by omega, by omega, by omega, by omega, by omega, by omega⟩
          · simp only [toOrdinal]
            omega

lemma subDays_spec : ∀ (n : Nat) (d : Date), d.isValid = true →
    n + 1 ≤ toOrdinal d →
    (subDays d n).isValid = true ∧ toOrdinal (subDays d n) + n = toOrdinal d := by
  intro n
  induction n with
  | zero =>
    intro d hv _
    refine ⟨hv, ?_⟩
    show toOrdinal d + 0 = toOrdinal d
    omega
  | succ k ih =>
    intro d hv hord
    have hp := prevDate_spec d hv (by omega)
    have hk := ih (prevDate d) hp.1 (by omega)
    refine ⟨hk.1, ?_⟩
    show toOrdinal (subDays (prevDate d) k) + (k + 1) = toOrdinal d
    have h1 := hk.2
    have h2 := hp.2
    omega

/-- C6: with both bounds omitted the statistics route resolves the range
to a seven-day inclusive window ending on the current date (end is today
and start is six days earlier); an omitted end defaults to today and an
omitted start to end minus six days, while supplied bounds are used as
given.  The last clause checks, for any valid current date at least seven
days after the calendar minimum, that the defaulted start is again a
valid date exactly six days before the end. -/
theorem C6_stats_default_window (db : Store) (today : Date) :
    ((stats_view db today none none).1.stop = today ∧
      (stats_view db today none none).1.start = subDays today 6) ∧
    (∀ s?, (stats_view db today s? none).1.stop = today) ∧
    (∀ e, (stats_view db today none (some e)).1.stop = e ∧
      (stats_view db today none (some e)).1.start = subDays e 6) ∧
    (∀ s e, (stats_view db today (some s) (some e)).1.start = s ∧
      (stats_view db today (some s) (some e)).1.stop = e) ∧
    (today.isValid = true → 7 ≤ toOrdinal today →
      (subDays today 6).isValid = true ∧
      toOrdinal (subDays today 6) + 6 = toOrdinal today) := by
  unfold stats_view
  dsimp only [Option.getD_some, Option.getD_none]
  exact ⟨⟨rfl, rfl⟩, fun s? => rfl, fun e => ⟨rfl, rfl⟩,
    fun s e => ⟨rfl, rfl⟩, fun hv h7 => subDays_spec 6 today hv (by omega)⟩

/-- Concrete instance of C6 on May 15, 2024: the default range is the
valid date May 9, 2024 through May 15, 2024, six ordinal days apart. -/
theorem C6_witness :
    ((stats_view emptyStore demoDate none none).1.stop = demoDate ∧
      (stats_view emptyStore demoDate none none).1.start = subDays demoDate 6) ∧
    ((subDays demoDate 6).isValid = true ∧
      toOrdinal (subDays demoDate 6) + 6 = toOrdinal demoDate) :=
  ⟨(C6_stats_default_window emptyStore demoDate).1,
    (C6_stats_default_window emptyStore demoDate).2.2.2.2 (by decide) (by decide)⟩

lemma mkDate_eq_some {y m d : Int} (h1 : 1 ≤ y) (h2 : y ≤ 9999) (h3 : 1 ≤ m)
    (h4 : m ≤ 12) (h5 : 1 ≤ d)
    (h6 : d ≤ (daysInMonth y.toNat m.toNat : Int)) :
    mkDate y m d = some ⟨y.toNat, m.toNat, d.toNat⟩ := by
  unfold mkDate
  rw [if_pos ⟨h1, h2, h3, h4, h5, h6⟩]

lemma mkDate_eq_none {y m d : Int}
    (h : ¬(1 ≤ y ∧ y ≤ 9999 ∧ 1 ≤ m ∧ m ≤ 12 ∧ 1 ≤ d ∧
      d ≤ (daysInMonth y.toNat m.toNat : Int))) :
    mkDate y m d = none := by
  unfold mkDate
  rw [if_neg h]

lemma calendar_view_fst (db : Store) (today : Date) (m y : Int) :
    (calendar_view db today (some m) (some y)).1 =
      match mkDate y m 1 with
      | none => .error ⟨500, ("Internal Server Error")⟩
      | some start_date =>
        match (if m == 12 then mkDate (y + 1) 1 1 else mkDate y (m + 1) 1) with
        | none => .error ⟨500, ("Internal Server Error")⟩
        | some next_month =>
          .ok ⟨m, y, dateList start_date (prevDate next_month),
            day_totals db.entries start_date (prevDate next_month)⟩ := by
  unfold calendar_view
  dsimp only [Option.getD_some]
  cases hk : mkDate y m 1 with
  | none => rfl
  | some s =>
    cases hn : (if m == 12 then mkDate (y + 1) 1 1 else mkDate y (m + 1) 1) with
    | none => rfl
    | some n => rfl

/-- C9: for a month outside 1..12 with any year, the construction of the
first day of the month fails (the model of the raising datetime.date
constructor returns none) and the calendar route errors out before any
day list is produced; for any month within 1..12 and any year the date
constructor accepts, the first-day construction succeeds. -/
theorem C9_calendar_month_guard (db : Store) (today : Date) (month year : Int) :
    ((month < 1 ∨ 12 < month) →
      mkDate year month 1 = none ∧
      (calendar_view db today (some month) (some year)).1 =
        .error ⟨500, ("Internal Server Error")⟩) ∧
    ((1 ≤ month ∧ month ≤ 12 ∧ 1 ≤ year ∧ year ≤ 9999) →
      mkDate year month 1 = some ⟨year.toNat, month.toNat, 1⟩) := by
  constructor
  · intro hout
    have hnone : mkDate year month 1 = none :=
      mkDate_eq_none (by rintro ⟨-, -, h3, h4, -, -⟩; omega)
    refine ⟨hnone, ?_⟩
    rw [calendar_view_fst, hnone]
  · rintro ⟨h1, h2, h3, h4⟩
    have hb := (daysInMonth_bounds year.toNat month.toNat).1
    exact mkDate_eq_some h3 h4 h1 h2 (by omega) (by omega)

/-- Concrete instance of C9: month 13 of 2024 fails before producing a
day list, while month 2 of 2024 constructs its first day. -/
theorem C9_witness :
    (mkDate 2024 13 1 = none ∧
      (calendar_view emptyStore demoDate (some 13) (some 2024)).1 =
        .error ⟨500, ("Internal Server Error")⟩) ∧
    mkDate 2024 2 1 = some ⟨2024, 2, 1⟩ :=
  ⟨(C9_calendar_month_guard emptyStore demoDate 13 2024).1 (by decide),
    (C9_calendar_month_guard emptyStore demoDate 2 2024).2 (by decide)⟩


lemma dayLoop_month (y m : Nat) : ∀ n k, 1 ≤ k → k + n = daysInMonth y m →
    dayLoopAux (n + 1) ⟨y, m, k⟩ ⟨y, m, daysInMonth y m⟩ =
      (List.range (n + 1)).map (fun i => Date.mk y m (k + i)) := by
  intro n
  induction n with
  | zero =>
    intro k hk hsum
    have hle : dle ⟨y, m, k⟩ ⟨y, m, daysInMonth y m⟩ = true := by
      simp [dle]
      omega
    rw [dayLoopAux, if_pos hle, dayLoopAux]
    simp [List.range_succ]
  | succ n ih =>
    intro k hk hsum
    have hle : dle ⟨y, m, k⟩ ⟨y, m, daysInMonth y m⟩ = true := by
      simp [dle]
      omega
    have hnext : nextDate ⟨y, m, k⟩ = ⟨y, m, k + 1⟩ := by
      unfold nextDate
      dsimp only
      rw [if_pos (by omega)]
    rw [dayLoopAux, if_pos hle, hnext, ih (k + 1) (by omega) (by omega)]
    conv_rhs => rw [List.range_succ_eq_map]
    simp only [List.map_cons, List.map_map, Function.comp_def, Nat.succ_eq_add_one]
    congr 1
    apply List.map_congr_left
    intro i hi
    congr 1
    omega

lemma dateList_month (y m : Nat) :
    dateList ⟨y, m, 1⟩ ⟨y, m, daysInMonth y m⟩ =
      (List.range (daysInMonth y m)).map (fun i => Date.mk y m (i + 1)) := by
  have hb := daysInMonth_bounds y m
  unfold dateList
  have hfuel : toOrdinal ⟨y, m, daysInMonth y m⟩ + 1 - toOrdinal ⟨y, m, 1⟩ =
      daysInMonth y m := by
    simp only [toOrdinal]
    omega
  rw [hfuel]
  have h := dayLoop_month y m (daysInMonth y m - 1) 1 (le_refl 1) (by omega)
  rw [show daysInMonth y m - 1 + 1 = daysInMonth y m from by omega] at h
  rw [h]
  apply List.map_congr_left
  intro i _
  congr 1
  omega

lemma head?_range_map {α : Type} (f : Nat → α) (n : Nat) (h : 0 < n) :
    ((List.range n).map f).head? = some (f 0) := by
  obtain ⟨d, rfl⟩ : ∃ d, n = d + 1 := ⟨n - 1, by omega⟩
  rw [List.range_succ_eq_map]
  simp

lemma getLast?_range_map {α : Type} (f : Nat → α) (n : Nat) (h : 0 < n) :
    ((List.range n).map f).getLast? = some (f (n - 1)) := by
  obtain ⟨d, rfl⟩ : ∃ d, n = d + 1 := ⟨n - 1, by omega⟩
  rw [List.range_succ, List.map_append, List.map_cons, List.map_nil,
    List.getLast?_concat]
  simp

lemma calendar_days (db : Store) (today : Date) (m y : Int)
    (h1 : 1 ≤ m) (h2 : m ≤ 12) (h3 : 1 ≤ y) (h4 : y ≤ 9999)
    (h5 : ¬(m = 12 ∧ y = 9999)) :
    (calendar_view db today (some m) (some y)).1 =
      .ok ⟨m, y,
        dateList ⟨y.toNat, m.toNat, 1⟩
          ⟨y.toNat, m.toNat, daysInMonth y.toNat m.toNat⟩,
        day_totals db.entries ⟨y.toNat, m.toNat, 1⟩
          ⟨y.toNat, m.toNat, daysInMonth y.toNat m.toNat⟩⟩ := by
  have hb := daysInMonth_bounds y.toNat m.toNat
  have hstart : mkDate y m 1 = some ⟨y.toNat, m.toNat, 1⟩ :=
    mkDate_eq_some h3 h4 h1 h2 (by omega) (by omega)
  rw [calendar_view_fst, hstart]
  by_cases hm12 : m = 12
  · subst hm12
    have hy : y ≤ 9998 := by
      by_contra hy
      exact h5 ⟨rfl, by omega⟩
    have hb1 := daysInMonth_bounds (y + 1).toNat (1 : Int).toNat
    have hnext : mkDate (y + 1) 1 1 = some ⟨(y + 1).toNat, 1, 1⟩ :=
      mkDate_eq_some (by omega) (by omega) (by omega) (by omega) (by omega)
        (by omega)
    rw [if_pos (by decide), hnext]
    have hpd : prevDate ⟨(y + 1).toNat, 1, 1⟩ =
        ⟨y.toNat, (12 : Int).toNat, daysInMonth y.toNat (12 : Int).toNat⟩ := by
      unfold prevDate
      dsimp only
      rw [if_neg (by omega), if_neg (by omega)]
      have hyy : (y + 1).toNat - 1 = y.toNat := by omega
      rw [hyy]
      rfl
    dsimp only
    rw [hpd]
  · have hmlt : m < 12 := by
      rcases lt_or_ge m 12 with h | h
      · exact h
      · exact absurd (by omega) hm12
    have hbn := daysInMonth_bounds y.toNat (m + 1).toNat
    have hnext : mkDate y (m + 1) 1 = some ⟨y.toNat, (m + 1).toNat, 1⟩ :=
      mkDate_eq_some h3 h4 (by omega) (by omega) (by omega) (by omega)
    rw [if_neg (by simpa using hm12), hnext]
    have hpd : prevDate ⟨y.toNat, (m + 1).toNat, 1⟩ =
        ⟨y.toNat, m.toNat, daysInMonth y.toNat m.toNat⟩ := by
      unfold prevDate
      dsimp only
      rw [if_neg (by omega), if_pos (by omega)]
      have hmn : (m + 1).toNat - 1 = m.toNat := by omega
      rw [hmn]
    dsimp only
    rw [hpd]

/-- C5 amended: for every month in 1..12 and year in 1..9999 other than
the pair December 9999 (where the following-month construction exceeds
the datetime year range and the route errors out instead), the calendar
day list enumerates exactly the dates of the month in ascending order:
position i holds day i+1 of the month, so the list has daysInMonth
entries, starts at the first of the month and ends at the last day, the
first day of the following month minus one day. -/
theorem C5_calendar_month_enumeration (db : Store) (today : Date) (m y : Int)
    (h1 : 1 ≤ m) (h2 : m ≤ 12) (h3 : 1 ≤ y) (h4 : y ≤ 9999)
    (h5 : ¬(m = 12 ∧ y = 9999)) :
    ∃ page, (calendar_view db today (some m) (some y)).1 = .ok page ∧
      page.month = m ∧ page.year = y ∧
      page.days = (List.range (daysInMonth y.toNat m.toNat)).map
        (fun i => Date.mk y.toNat m.toNat (i + 1)) ∧
      page.days.length = daysInMonth y.toNat m.toNat ∧
      page.days.head? = some ⟨y.toNat, m.toNat, 1⟩ ∧
      page.days.getLast? =
        some ⟨y.toNat, m.toNat, daysInMonth y.toNat m.toNat⟩ := by
  have hb := daysInMonth_bounds y.toNat m.toNat
  refine ⟨_, calendar_days db today m y h1 h2 h3 h4 h5, rfl, rfl, ?_, ?_, ?_, ?_⟩
  · exact dateList_month y.toNat m.toNat
  · rw [dateList_month y.toNat m.toNat]
    simp
  · rw [dateList_month y.toNat m.toNat, head?_range_map _ _ (by omega)]
  · rw [dateList_month y.toNat m.toNat, getLast?_range_map _ _ (by omega)]
    have hdd : daysInMonth y.toNat m.toNat - 1 + 1 = daysInMonth y.toNat m.toNat := by
      omega
    simp [hdd]

/-- C5 as stated is false at two concrete inputs: at month 12 of year
9999 the date constructor accepts the first day but the following-month
computation overflows the datetime year range, so the route errors out
and no day list enumerating December 9999 is produced; at year 0 every
month fails already at the first-day construction, so a day list does not
exist there either although the month is within 1..12. -/
theorem C5_counterexample :
    (calendar_view emptyStore demoDate (some 12) (some 9999)).1 =
      .error ⟨500, ("Internal Server Error")⟩ ∧
    (calendar_view emptyStore demoDate (some 1) (some 0)).1 =
      .error ⟨500, ("Internal Server Error")⟩ := by
  exact ⟨by decide, by decide⟩

/-- Concrete instances of the amended C5, matching the examples of the
specification: February 2024 has 29 days, February 2023 has 28, and
December 2023 has 31 days ending on December 31, 2023. -/
theorem C5_witness :
    (∃ page, (calendar_view emptyStore demoDate (some 2) (some 2024)).1 =
      .ok page ∧ page.days.length = 29) ∧
    (∃ page, (calendar_view emptyStore demoDate (some 2) (some 2023)).1 =
      .ok page ∧ page.days.length = 28) ∧
    (∃ page, (calendar_view emptyStore demoDate (some 12) (some 2023)).1 =
      .ok page ∧ page.days.length = 31 ∧
      page.days.getLast? = some ⟨2023, 12, 31⟩) := by
  refine ⟨?_, ?_, ?_⟩
  · obtain ⟨p, hp, -, -, -, hlen, -, -⟩ :=
      C5_calendar_month_enumeration emptyStore demoDate 2 2024
        (by decide) (by decide) (by decide) (by decide) (by decide)
    exact ⟨p, hp, by rw [hlen]; decide⟩
  · obtain ⟨p, hp, -, -, -, hlen, -, -⟩ :=
      C5_calendar_month_enumeration emptyStore demoDate 2 2023
        (by decide) (by decide) (by decide) (by decide) (by decide)
    exact ⟨p, hp, by rw [hlen]; decide⟩
  · obtain ⟨p, hp, -, -, -, hlen, -, hlast⟩ :=
      C5_calendar_month_enumeration emptyStore demoDate 12 2023
        (by decide) (by decide) (by decide) (by decide) (by decide)
    refine ⟨p, hp, by rw [hlen]; decide, ?_⟩
    rw [hlast]
    decide

lemma parse_time_field_spec (dv : Date) (s : String) (st : Option DateTime)
    (hs : parse_time_field dv s = .ok st) :
    (s = "" → st = none) ∧
    (∀ h mi, s ≠ "" → parseHM s = some (h, mi) → st = some ⟨dv, h, mi⟩) ∧
    (∀ x, st = some x → x.date = dv) := by
  unfold parse_time_field at hs
  by_cases hss : s = ""
  · rw [if_pos hss] at hs
    simp only [Except.ok.injEq] at hs
    subst hs
    exact ⟨fun _ => rfl, fun h mi hne _ => absurd hss hne, fun x hx => by cases hx⟩
  · rw [if_neg hss] at hs
    cases hp : parseHM s with
    | none =>
      rw [hp] at hs
      cases hs
    | some t =>
      rw [hp] at hs
      simp only [Except.ok.injEq] at hs
      subst hs
      refine ⟨fun hcon => absurd hcon hss, ?_, ?_⟩
      · intro h mi hne hp2
        have ht : t = (h, mi) := Option.some.inj hp2
        rw [ht]
      · intro x hx
        simp only [Option.some.injEq] at hx
        rw [← hx]

/-- C8: a successful entry creation stores, for each of the two time
strings, the timestamp obtained by combining the entry date with the
parsed HH:MM time of day when the string is nonempty, and no timestamp
when it is empty; hence every stored timestamp of the new entry carries
the entry's own date as its date component, and the two times are not
checked against each other (creation succeeds for any pair of parseable
strings). -/
theorem C8_entry_timestamps (db : Store) (date_value : Date) (cid : Nat)
    (dur : Rat) (comment : String) (s e : String) (c : Category)
    (hc : get_category db cid = some c) (st et : Option DateTime)
    (hs : parse_time_field date_value s = .ok st)
    (he : parse_time_field date_value e = .ok et) :
    (add_entry db date_value cid dur comment s e =
      (.ok ("/?day=" ++ date_value.isoformat),
        ⟨db.categories,
          db.entries ++ [⟨db.next_entry_id, date_value, st, et, dur,
            (if comment = "" then none else some comment), cid⟩],
          db.next_category_id, db.next_entry_id + 1⟩)) ∧
    (s = "" → st = none) ∧ (e = "" → et = none) ∧
    (∀ h mi, s ≠ "" → parseHM s = some (h, mi) →
      st = some ⟨date_value, h, mi⟩) ∧
    (∀ h mi, e ≠ "" → parseHM e = some (h, mi) →
      et = some ⟨date_value, h, mi⟩) ∧
    (∀ x, st = some x → x.date = date_value) ∧
    (∀ x, et = some x → x.date = date_value) := by
  obtain ⟨hs1, hs2, hs3⟩ := parse_time_field_spec date_value s st hs
  obtain ⟨he1, he2, he3⟩ := parse_time_field_spec date_value e et he
  refine ⟨?_, hs1, he1, hs2, he2, hs3, he3⟩
  unfold add_entry
  rw [hc, hs, he]

/-- Concrete instance of C8: an entry created with start 10:30 and end
09:00 (an end before the start, which nothing validates) stores both
timestamps on the entry's own date. -/
theorem C8_witness :
    add_entry demoStore demoDate 1 2 ("work log") ("10:30") ("09:00") =
      (.ok ("/?day=" ++ demoDate.isoformat),
        ⟨demoStore.categories,
          demoStore.entries ++
            [⟨2, demoDate, some ⟨demoDate, 10, 30⟩, some ⟨demoDate, 9, 0⟩, 2,
              some ("work log"), 1⟩],
          2, 3⟩) :=
  (C8_entry_timestamps demoStore demoDate 1 2 ("work log") ("10:30") ("09:00")
    demoCategory (by decide) (some ⟨demoDate, 10, 30⟩) (some ⟨demoDate, 9, 0⟩)
    (by decide) (by decide)).1

lemma export_le_trans (a b c : TimeEntry)
    (h1 : export_le a b) (h2 : export_le b c) : export_le a c := by
  obtain ⟨ia, da, _, _, _, _, _⟩ := a
  obtain ⟨ib, dbb, _, _, _, _, _⟩ := b
  obtain ⟨ic, dc, _, _, _, _, _⟩ := c
  obtain ⟨y1, m1, d1⟩ := da
  obtain ⟨y2, m2, d2⟩ := dbb
  obtain ⟨y3, m3, d3⟩ := dc
  simp only [export_le, dlt, Bool.or_eq_true, Bool.and_eq_true,
    decide_eq_true_eq, Date.mk.injEq] at h1 h2 ⊢
  omega

lemma export_le_total (a b : TimeEntry) : export_le a b || export_le b a := by
  obtain ⟨ia, da, _, _, _, _, _⟩ := a
  obtain ⟨ib, dbb, _, _, _, _, _⟩ := b
  obtain ⟨y1, m1, d1⟩ := da
  obtain ⟨y2, m2, d2⟩ := dbb
  simp only [export_le, dlt, Bool.or_eq_true, Bool.and_eq_true,
    decide_eq_true_eq, Date.mk.injEq]
  omega

/-- The category an export row joins to: the category whose primary key
the entry references (the default is never reached when every entry
references an existing category). -/
def categoryOf (db : Store) (x : TimeEntry) : Category :=
  (db.categories.find? (fun c => c.id == x.category_id)).getD ⟨0, "", none, none⟩

lemma filterMap_join (db : Store) (l : List TimeEntry)
    (h : ∀ x ∈ l, ∃ c ∈ db.categories, c.id = x.category_id) :
    l.filterMap (fun x =>
      (db.categories.find? (fun c => c.id == x.category_id)).map (entry_row x)) =
      l.map (fun x => entry_row x (categoryOf db x)) := by
  induction l with
  | nil => rfl
  | cons a t ih =>
    obtain ⟨c, hc1, hc2⟩ := h a (List.mem_cons_self a t)
    have hfind : (db.categories.find? (fun c => c.id == a.category_id)).isSome := by
      rw [List.find?_isSome]
      exact ⟨c, hc1, by simpa using hc2⟩
    obtain ⟨c2, hc2x⟩ := Option.isSome_iff_exists.mp hfind
    rw [List.filterMap_cons, List.map_cons, hc2x]
    simp only [Option.map_some']
    congr 1
    · unfold categoryOf
      rw [hc2x]
      rfl
    · exact ih (fun x hx => h x (List.mem_cons_of_mem a hx))

/-- C7: the export workbook has the single sheet titled Time entries,
its rows are the fixed six-label header row followed by one row per
entry with date between start and end inclusive, the data rows are the
in-range entries arranged in an order that is sorted by date then id (a
permutation of the in-range entries, pairwise ordered), each row built by
entry_row from the entry and its category (ISO date string, category
name, raw stored duration, comment or empty string, times as HH:MM or
empty), and the row count is the number of matching entries plus one. -/
theorem C7_export_rows (db : Store) (today : Date) (s e : Date)
    (hval : entriesValid db) :
    (export_excel db today (some s) (some e)).1.title = ("Time entries") ∧
    (∃ l, List.Perm l (inRangeEntries db s e) ∧
      List.Pairwise (fun a b => export_le a b = true) l ∧
      (export_excel db today (some s) (some e)).1.rows =
        export_headers.map Cell.str ::
          l.map (fun x => entry_row x (categoryOf db x))) ∧
    (export_excel db today (some s) (some e)).1.rows.length =
      (inRangeEntries db s e).length + 1 := by
  have hmem : ∀ x ∈ (inRangeEntries db s e).mergeSort export_le,
      ∃ c ∈ db.categories, c.id = x.category_id := by
    intro x hx
    rw [List.mem_mergeSort] at hx
    exact hval x (List.mem_filter.mp hx).1
  have hrows : (export_excel db today (some s) (some e)).1.rows =
      export_headers.map Cell.str ::
        ((inRangeEntries db s e).mergeSort export_le).map
          (fun x => entry_row x (categoryOf db x)) := by
    unfold export_excel
    dsimp only [Option.getD_some]
    rw [filterMap_join db _ hmem]
  refine ⟨rfl, ⟨(inRangeEntries db s e).mergeSort export_le,
    List.mergeSort_perm _ _, ?_, hrows⟩, ?_⟩
  · exact List.sorted_mergeSort export_le_trans export_le_total _
  · rw [hrows]
    simp

/-- Concrete instance of C7 at the sample store over May 2024: one entry
matches, giving two rows behind the literal header. -/
theorem C7_witness :
    (export_excel demoStore demoDate (some ⟨2024, 5, 1⟩)
      (some ⟨2024, 5, 31⟩)).1.title = ("Time entries") ∧
    (∃ l, List.Perm l (inRangeEntries demoStore ⟨2024, 5, 1⟩ ⟨2024, 5, 31⟩) ∧
      List.Pairwise (fun a b => export_le a b = true) l ∧
      (export_excel demoStore demoDate (some ⟨2024, 5, 1⟩)
          (some ⟨2024, 5, 31⟩)).1.rows =
        export_headers.map Cell.str ::
          l.map (fun x => entry_row x (categoryOf demoStore x))) ∧
    (export_excel demoStore demoDate (some ⟨2024, 5, 1⟩)
        (some ⟨2024, 5, 31⟩)).1.rows.length =
      (inRangeEntries demoStore ⟨2024, 5, 1⟩ ⟨2024, 5, 31⟩).length + 1 :=
  C7_export_rows demoStore demoDate ⟨2024, 5, 1⟩ ⟨2024, 5, 31⟩ (by decide)

end TMS
